import Mathlib

/-!
Shallow embedding of the validation core of `env-guardian-cli`
(`src/core/validator.ts` and the schema/validation types of
`src/types/index.ts`).

Host facilities of the JavaScript runtime that the validator calls out to
(`RegExp` compilation and matching, `new URL`, `JSON.parse`,
number-to-string display) are abstracted into a `Host` structure, so every
theorem about control flow holds for any behaviour of those facilities.
The string-to-number conversion `Number(value)` is modelled concretely
(`jsNumber` below) following the ECMAScript StringNumericLiteral grammar,
with finite doubles represented as exact rationals.
-/

namespace EnvGuardian

/-- A JavaScript number as produced by `Number(string)`: NaN, ±Infinity, or a
finite value (modelled as an exact rational; the claims under study depend
only on the NaN / ±Infinity / finite classification and on small integer
values, where the rational model agrees with IEEE doubles). -/
inductive JsNum where
  | nan : JsNum
  | posInf : JsNum
  | negInf : JsNum
  | val : Rat → JsNum
deriving DecidableEq, Repr

/-- A JavaScript value of type `string | number | boolean`, the payload type
of coercion results, parsed values and schema defaults. -/
inductive JSValue where
  | str : String → JSValue
  | num : JsNum → JSValue
  | bool : Bool → JSValue
deriving DecidableEq, Repr

/-! ### The host's `Number(string)` conversion

Modelled from ECMAScript's StringNumericLiteral grammar: trim whitespace,
empty → 0, optional sign with `Infinity` or a decimal literal, or an
unsigned hex / octal / binary literal. Anything else is NaN. -/

/-- JS `StrWhiteSpace` characters (WhiteSpace and LineTerminator). -/
def jsWhitespaceChar (c : Char) : Bool :=
  c = ' ' || c = '\t' || c = '\n' || c = '\r' ||
  c.toNat = 11 || c.toNat = 12 || c.toNat = 0xA0 || c.toNat = 0x1680 ||
  (0x2000 ≤ c.toNat && c.toNat ≤ 0x200A) ||
  c.toNat = 0x2028 || c.toNat = 0x2029 || c.toNat = 0x202F ||
  c.toNat = 0x205F || c.toNat = 0x3000 || c.toNat = 0xFEFF

/-- Value of a list of decimal digit characters. -/
def decDigitsToNat (l : List Char) : Nat :=
  l.foldl (fun a c => 10 * a + (c.toNat - 48)) 0

def isHexDig (c : Char) : Bool :=
  c.isDigit || ('a' ≤ c && c ≤ 'f') || ('A' ≤ c && c ≤ 'F')

def hexVal (c : Char) : Nat :=
  if c.isDigit then c.toNat - 48
  else if 'a' ≤ c then c.toNat - 87
  else c.toNat - 55

def isOctDig (c : Char) : Bool := '0' ≤ c && c ≤ '7'

def isBinDig (c : Char) : Bool := c = '0' || c = '1'

/-- Parse a non-empty all-`isDig` digit string in the given radix. -/
def parseRadix (radix : Nat) (isDig : Char → Bool) (toVal : Char → Nat)
    (l : List Char) : Option Nat :=
  if l ≠ [] && l.all isDig then
    some (l.foldl (fun a c => radix * a + toVal c) 0)
  else none

/-- Split a decimal literal at the first `e`/`E` into mantissa and
exponent parts. -/
def splitExp (l : List Char) : List Char × Option (List Char) :=
  match l.span (fun c => !(c = 'e' || c = 'E')) with
  | (m, []) => (m, none)
  | (m, _ :: r) => (m, some r)

/-- Parse an exponent part (optional sign, then non-empty digits). -/
def parseExponent (l : List Char) : Option Int :=
  match l with
  | '+' :: ds =>
    if ds ≠ [] && ds.all Char.isDigit then some (decDigitsToNat ds) else none
  | '-' :: ds =>
    if ds ≠ [] && ds.all Char.isDigit then some (-(decDigitsToNat ds : Int)) else none
  | ds =>
    if ds ≠ [] && ds.all Char.isDigit then some (decDigitsToNat ds) else none

/-- Parse a decimal mantissa: `Digits`, `Digits . Digits?` or `. Digits`. -/
def parseMantissa (l : List Char) : Option Rat :=
  match l.span Char.isDigit with
  | (ip, []) => if ip = [] then none else some (decDigitsToNat ip : Rat)
  | (ip, '.' :: fp) =>
    if fp.all Char.isDigit && (ip ≠ [] || fp ≠ []) then
      some ((decDigitsToNat ip : Rat) + (decDigitsToNat fp : Rat) / (10 : Rat) ^ fp.length)
    else none
  | _ => none

/-- Parse a signed-position decimal literal (mantissa with optional
exponent part). -/
def parseDecimal (l : List Char) : Option Rat :=
  match splitExp l with
  | (m, none) => parseMantissa m
  | (m, some e) =>
    match parseMantissa m, parseExponent e with
    | some q, some k =>
      some (if 0 ≤ k then q * (10 : Rat) ^ k.toNat else q / (10 : Rat) ^ (-k).toNat)
    | _, _ => none

/-- Parse an unsigned hex / octal / binary literal (`0x…`, `0o…`, `0b…`). -/
def parseNonDec (l : List Char) : Option Rat :=
  match l with
  | '0' :: x :: ds =>
    if x = 'x' || x = 'X' then (parseRadix 16 isHexDig hexVal ds).map (Nat.cast)
    else if x = 'o' || x = 'O' then (parseRadix 8 isOctDig (fun c => c.toNat - 48) ds).map (Nat.cast)
    else if x = 'b' || x = 'B' then (parseRadix 2 isBinDig (fun c => c.toNat - 48) ds).map (Nat.cast)
    else none
  | _ => none

/-- The part after an explicit sign: `Infinity` or a decimal literal
(hex/octal/binary literals do not admit a sign). -/
def signedTail (sign : Int) (r : List Char) : JsNum :=
  if r = "Infinity".toList then
    (if sign = 1 then JsNum.posInf else JsNum.negInf)
  else
    match parseDecimal r with
    | some q => JsNum.val ((sign : Rat) * q)
    | none => JsNum.nan

/-- The host's `Number(value)` string-to-number conversion. -/
def jsNumber (s : String) : JsNum :=
  let t := ((s.toList.dropWhile jsWhitespaceChar).reverse.dropWhile jsWhitespaceChar).reverse
  match t with
  | [] => JsNum.val 0
  | '+' :: r => signedTail 1 r
  | '-' :: r => signedTail (-1) r
  | t =>
    if t = "Infinity".toList then JsNum.posInf
    else
      match parseNonDec t with
      | some q => JsNum.val q
      | none =>
        match parseDecimal t with
        | some q => JsNum.val q
        | none => JsNum.nan

/-- JS `String.prototype.startsWith`, on the character-list view (kernel
reducible, unlike the byte-based library version). -/
def jsStartsWith (s p : String) : Bool :=
  decide (s.toList.take p.toList.length = p.toList)

/-- JS `String.prototype.slice(n)` for a non-negative start index. -/
def jsSlice (s : String) (n : Nat) : String :=
  ⟨s.toList.drop n⟩

/-! ### Schema and validation types (`src/types/index.ts`) -/

inductive VariableType where
  | string : VariableType
  | number : VariableType
  | boolean : VariableType
deriving DecidableEq, Repr

/-- The declared type's name, as it appears in `expected` fields. -/
def typeName : VariableType → String
  | .string => "string"
  | .number => "number"
  | .boolean => "boolean"

/-- One variable's specification (`VariableSchema` in `types/index.ts`).
`min`/`max`/`minLength`/`maxLength` are JS numbers, modelled as rationals. -/
structure Variable where
  type : VariableType
  format : Option String := none
  required : Bool := true
  default : Option JSValue := none
  description : Option String := none
  enum : Option (List String) := none
  pattern : Option String := none
  min : Option Rat := none
  max : Option Rat := none
  minLength : Option Rat := none
  maxLength : Option Rat := none
deriving DecidableEq, Repr

/-- A schema: an ordered mapping from variable name to spec
(`Object.entries` order of the source's `variables` record; `variables`
is reserved in Lean, so the field is `vars`). -/
structure EnvSchema where
  vars : List (String × Variable)
deriving DecidableEq, Repr

inductive ErrorType where
  | missing | invalid_type | invalid_format | invalid_enum | invalid_range
deriving DecidableEq, Repr

inductive WarningType where
  | unused | default_applied | deprecated
deriving DecidableEq, Repr

/-- `ValidationError`; the source's `variable` field is `varName` here
(`variable` is reserved in Lean). -/
structure ValidationError where
  varName : String
  message : String
  type : ErrorType
  expected : Option String := none
  received : Option String := none
deriving DecidableEq, Repr

structure ValidationWarning where
  varName : String
  message : String
  type : WarningType
deriving DecidableEq, Repr

/-- An environment: ordered key/value entries; a key may be bound to
`undefined` (`none`), matching `Record<string, string | undefined>`. -/
abbrev Env := List (String × Option String)

/-- `env[name]`: `undefined` both when the key is absent and when it is
bound to `undefined`. -/
def envGet (env : Env) (name : String) : Option String :=
  match env.find? (fun p => p.1 = name) with
  | some p => p.2
  | none => none

/-- The result record of `validate`. `parsed` is the ordered entry list of
the built record. -/
structure ValidationResult where
  valid : Bool
  errors : List ValidationError
  warnings : List ValidationWarning
  parsed : List (String × JSValue)
deriving DecidableEq, Repr

/-- The anonymous `{ error?, warning?, parsed? }` result of
`validateVariable`. -/
structure VResult where
  error : Option ValidationError := none
  warning : Option ValidationWarning := none
  parsed : Option JSValue := none
deriving DecidableEq, Repr

/-! ### Host facilities -/

/-- The JavaScript host facilities the validator uses: `new RegExp` (which
may fail to compile) together with `.test`, `new URL`, `JSON.parse`, regex
literals (which always compile), and number-to-string display used in
messages. -/
structure Host where
  /-- `new RegExp(p)`: `none` if the pattern does not compile, otherwise
  the `.test` predicate of the compiled regex. -/
  compileRegex : String → Option (String → Bool)
  /-- `new URL(v)` succeeds. -/
  urlOk : String → Bool
  /-- `JSON.parse(v)` succeeds. -/
  jsonOk : String → Bool
  /-- `/lit/.test v` for a regex literal `lit` (always compiles). -/
  litRegexTest : String → String → Bool
  /-- JS number-to-string display, as used by template interpolation. -/
  numToString : JsNum → String

/-- JS template interpolation of a `string | number | boolean` value. -/
def jsValueToString (h : Host) : JSValue → String
  | .str s => s
  | .num n => h.numToString n
  | .bool true => "true"
  | .bool false => "false"

/-! ### Type coercion (`coerceValue`) -/

structure CoerceResult where
  success : Bool
  value : JSValue
  error : Option String := none
deriving DecidableEq, Repr

def coerceValue (value : String) (type : VariableType) : CoerceResult :=
  match type with
  | .string => { success := true, value := .str value }
  | .number =>
    let num := jsNumber value
    if num = .nan then
      { success := false, value := .str value,
        error := some ("Cannot convert \"" ++ value ++ "\" to number") }
    else
      { success := true, value := .num num }
  | .boolean =>
    let lower := value.toLower
    if ["true", "1", "yes", "on"].contains lower then
      { success := true, value := .bool true }
    else if ["false", "0", "no", "off"].contains lower then
      { success := true, value := .bool false }
    else
      { success := false, value := .str value,
        error := some ("Cannot convert \"" ++ value ++
          "\" to boolean. Use true/false, 1/0, yes/no, or on/off") }

/-! ### Format validators -/

def portOk (v : String) : Bool :=
  match jsNumber v with
  | .val q => decide ((1 : Rat) ≤ q ∧ q ≤ 65535 ∧ q.den = 1)
  | _ => false

def positiveOk (v : String) : Bool :=
  match jsNumber v with
  | .val q => decide ((0 : Rat) < q)
  | .posInf => true
  | _ => false

def integerOk (v : String) : Bool :=
  match jsNumber v with
  | .val q => q.den == 1
  | _ => false

def percentageOk (v : String) : Bool :=
  match jsNumber v with
  | .val q => decide ((0 : Rat) ≤ q ∧ q ≤ 100)
  | _ => false

/-- The `formatValidators` lookup table. Predicates defined by regex
literals go through the host's literal-regex matcher (the `uuid` literal
carries the `i` flag in the source); `url` and `json` go through the
host's `new URL` / `JSON.parse`. -/
def formatValidators (h : Host) (name : String) : Option (String → Bool) :=
  if name = "url" then some h.urlOk
  else if name = "email" then
    some (fun v => h.litRegexTest "^[^\\s@]+@[^\\s@]+\\.[^\\s@]+$" v)
  else if name = "uuid" then
    some (fun v => h.litRegexTest
      "^[0-9a-f]\x7b8\x7d-[0-9a-f]\x7b4\x7d-[0-9a-f]\x7b4\x7d-[0-9a-f]\x7b4\x7d-[0-9a-f]\x7b12\x7d$" v)
  else if name = "json" then some h.jsonOk
  else if name = "base64" then
    some (fun v => h.litRegexTest "^[A-Za-z0-9+/]*=\x7b0,2\x7d$" v && v.length % 4 == 0)
  else if name = "hex" then some (fun v => h.litRegexTest "^[0-9a-fA-F]+$" v)
  else if name = "alphanumeric" then some (fun v => h.litRegexTest "^[a-zA-Z0-9]+$" v)
  else if name = "port" then some portOk
  else if name = "positive" then some positiveOk
  else if name = "integer" then some integerOk
  else if name = "percentage" then some percentageOk
  else none

/-! ### Per-variable validation (`validateVariable`) -/

/-- The absent-or-empty branch of `validateVariable`
(`value === undefined || value === ''`). -/
def missingCase (h : Host) (name : String) (spec : Variable) : VResult :=
  if spec.required then
    match spec.default with
    | some d =>
      { warning := some ⟨name, "Using default value: " ++ jsValueToString h d, .default_applied⟩,
        parsed := some d }
    | none =>
      { error := some ⟨name, "Required variable is missing", .missing, none, none⟩ }
  else
    match spec.default with
    | some d =>
      { warning := some ⟨name, "Using default value: " ++ jsValueToString h d, .default_applied⟩,
        parsed := some d }
    | none => {}

/-- Enum validation (`spec.enum && spec.enum.length > 0`). -/
def enumStep (name v : String) (spec : Variable) : Option ValidationError :=
  match spec.enum with
  | some es =>
    if 0 < es.length && !(es.contains v) then
      some ⟨name, "Value must be one of: " ++ String.intercalate ", " es, .invalid_enum,
        some (String.intercalate " | " es), some v⟩
    else none
  | none => none

/-- Format validation: `regex:`-prefixed custom pattern or a named
built-in validator; `if (spec.format)` skips the empty string (falsy). -/
def formatStep (h : Host) (name v : String) (spec : Variable) : Option ValidationError :=
  match spec.format with
  | none => none
  | some f =>
    if f = "" then none
    else if jsStartsWith f "regex:" then
      -- `const pattern = spec.format.slice(6)` is `jsSlice f 6` below
      match h.compileRegex (jsSlice f 6) with
      | some test =>
        if !(test v) then
          some ⟨name, "Value does not match pattern: " ++ jsSlice f 6, .invalid_format,
            some (jsSlice f 6), some v⟩
        else none
      | none =>
        some ⟨name, "Invalid regex pattern: " ++ jsSlice f 6, .invalid_format, none, none⟩
    else
      match formatValidators h f with
      | some fv =>
        if !(fv v) then
          some ⟨name, "Invalid " ++ f ++ " format", .invalid_format, some f, some v⟩
        else none
      | none => none

/-- JS `<` against a schema constant (`NaN < b` and `Infinity < b` are
false, `-Infinity < b` is true). -/
def jsLtRat (a : JsNum) (b : Rat) : Bool :=
  match a with
  | .val q => decide (q < b)
  | .negInf => true
  | _ => false

/-- JS `>` against a schema constant. -/
def jsGtRat (a : JsNum) (b : Rat) : Bool :=
  match a with
  | .val q => decide (b < q)
  | .posInf => true
  | _ => false

/-- The `coerced.value as number` cast (only taken when the declared type
is `number`, in which case the value is a number). -/
def asNum : JSValue → JsNum
  | .num n => n
  | _ => .nan

/-- The `coerced.value as string` cast (only taken when the declared type
is `string`). -/
def asStr : JSValue → String
  | .str s => s
  | _ => ""

/-- Range validation for numbers (`spec.min` / `spec.max`). -/
def rangeStep (h : Host) (name : String) (spec : Variable) (cv : JSValue) :
    Option ValidationError :=
  if spec.type = .number then
    let numValue := asNum cv
    let minErr : Option ValidationError :=
      match spec.min with
      | some m =>
        if jsLtRat numValue m then
          some ⟨name, "Value " ++ h.numToString numValue ++ " is less than minimum " ++
              h.numToString (.val m),
            .invalid_range, some (">= " ++ h.numToString (.val m)),
            some (h.numToString numValue)⟩
        else none
      | none => none
    let maxErr : Option ValidationError :=
      match spec.max with
      | some m =>
        if jsGtRat numValue m then
          some ⟨name, "Value " ++ h.numToString numValue ++ " is greater than maximum " ++
              h.numToString (.val m),
            .invalid_range, some ("<= " ++ h.numToString (.val m)),
            some (h.numToString numValue)⟩
        else none
      | none => none
    minErr <|> maxErr
  else none

/-- Length validation for strings (`spec.minLength` / `spec.maxLength`). -/
def lengthStep (h : Host) (name : String) (spec : Variable) (cv : JSValue) :
    Option ValidationError :=
  if spec.type = .string then
    let strValue := asStr cv
    let minErr : Option ValidationError :=
      match spec.minLength with
      | some m =>
        if decide ((strValue.length : Rat) < m) then
          some ⟨name, "Value length " ++ toString strValue.length ++
              " is less than minimum " ++ h.numToString (.val m),
            .invalid_range, some ("length >= " ++ h.numToString (.val m)),
            some (toString strValue.length)⟩
        else none
      | none => none
    let maxErr : Option ValidationError :=
      match spec.maxLength with
      | some m =>
        if decide (m < (strValue.length : Rat)) then
          some ⟨name, "Value length " ++ toString strValue.length ++
              " is greater than maximum " ++ h.numToString (.val m),
            .invalid_range, some ("length <= " ++ h.numToString (.val m)),
            some (toString strValue.length)⟩
        else none
      | none => none
    minErr <|> maxErr
  else none

/-- Custom pattern validation; an uncompilable pattern is skipped
(`catch { /* Invalid pattern - skip validation */ }`); `if (spec.pattern)`
skips the empty string (falsy). -/
def patternStep (h : Host) (name v : String) (spec : Variable) : Option ValidationError :=
  match spec.pattern with
  | none => none
  | some p =>
    if p = "" then none
    else
      match h.compileRegex p with
      | some test =>
        if !(test v) then
          some ⟨name, "Value does not match pattern: " ++ p, .invalid_format,
            some p, some v⟩
        else none
      | none => none

/-- The present-value branch of `validateVariable`: coercion, then the
enum / format / range / length / pattern checks in order, first failure
winning; all passing, the coerced value is the parsed result. -/
def validatePresent (h : Host) (name v : String) (spec : Variable) : VResult :=
  -- `const coerced = coerceValue(value, spec.type)` is inlined at each use
  if !(coerceValue v spec.type).success then
    { error := some ⟨name, (coerceValue v spec.type).error.getD "Type conversion failed",
        .invalid_type, some (typeName spec.type), some v⟩ }
  else
    match enumStep name v spec <|> formatStep h name v spec <|>
        rangeStep h name spec (coerceValue v spec.type).value <|>
        lengthStep h name spec (coerceValue v spec.type).value <|>
        patternStep h name v spec with
    | some e => { error := some e }
    | none => { parsed := some (coerceValue v spec.type).value }

def validateVariable (h : Host) (name : String) (value : Option String)
    (spec : Variable) : VResult :=
  match value with
  | none => missingCase h name spec
  | some v => if v = "" then missingCase h name spec else validatePresent h name v spec

/-! ### Aggregation (`validate`, `isSystemEnvVar`, `isValid`) -/

structure ValidateOptions where
  strict : Bool := false
deriving DecidableEq, Repr

def systemVars : List String :=
  ["PATH", "HOME", "USER", "SHELL", "TERM", "LANG", "LC_ALL", "PWD", "OLDPWD",
   "HOSTNAME", "LOGNAME", "EDITOR", "VISUAL", "_", "SHLVL", "XDG_", "SSH_",
   "GPG_", "DISPLAY", "COLORTERM"]

def isSystemEnvVar (key : String) : Bool :=
  systemVars.any (fun s => jsStartsWith key s || key = s)

/-- The body of the strict-mode scan loop: skip system variables and
schema-declared keys (`schemaKeys = new Set(Object.keys(schema.variables))`
is inlined as the key list of the schema), warn otherwise. -/
def unusedWarning (schema : EnvSchema) (key : String) : Option ValidationWarning :=
  if isSystemEnvVar key then none
  else if (schema.vars.map Prod.fst).contains key then none
  else some ⟨key, "Variable not defined in schema", .unused⟩

/-- The strict-mode scan: an `unused` warning for every environment key
(`Object.keys(env)` order) that is neither a system variable nor declared
in the schema. -/
def strictWarnings (schema : EnvSchema) (env : Env) : List ValidationWarning :=
  (env.map Prod.fst).filterMap (unusedWarning schema)

def validate (h : Host) (schema : EnvSchema) (env : Env)
    (options : ValidateOptions) : ValidationResult :=
  let results := schema.vars.map (fun p => (p.1, validateVariable h p.1 (envGet env p.1) p.2))
  let errors := results.filterMap (fun r => r.2.error)
  let warnings := results.filterMap (fun r => r.2.warning)
  let warnings := if options.strict then warnings ++ strictWarnings schema env else warnings
  let parsed := results.filterMap (fun r => r.2.parsed.map (fun v => (r.1, v)))
  { valid := errors.isEmpty, errors := errors, warnings := warnings, parsed := parsed }

/-- `isValid` calls `validate` with the default (non-strict) options. -/
def isValid (h : Host) (schema : EnvSchema) (env : Env) : Bool :=
  (validate h schema env {}).valid

/-! ### Concrete hosts, used to instantiate universally quantified
theorems at concrete inputs -/

/-- A host on which no regex compiles and every host check rejects. -/
def hostNone : Host :=
  { compileRegex := fun _ => none
    urlOk := fun _ => false
    jsonOk := fun _ => false
    litRegexTest := fun _ _ => false
    numToString := fun _ => "#" }

/-- A host on which every regex compiles to an accept-all matcher and
every host check accepts. -/
def hostAll : Host :=
  { compileRegex := fun _ => some (fun _ => true)
    urlOk := fun _ => true
    jsonOk := fun _ => true
    litRegexTest := fun _ _ => true
    numToString := fun _ => "#" }

/-! ### Helper lemmas about the per-variable steps -/

theorem enumStep_some (n v : String) (spec : Variable) (e : ValidationError)
    (he : enumStep n v spec = some e) : e.varName = n ∧ e.type = .invalid_enum := by
  unfold enumStep at he
  split at he
  · split at he
    · cases he; exact ⟨rfl, rfl⟩
    · exact absurd he (by simp)
  · exact absurd he (by simp)

theorem formatStep_some (h : Host) (n v : String) (spec : Variable) (e : ValidationError)
    (he : formatStep h n v spec = some e) : e.varName = n ∧ e.type = .invalid_format := by
  unfold formatStep at he
  split at he
  · exact absurd he (by simp)
  · split at he
    · exact absurd he (by simp)
    · split at he
      · split at he
        · split at he
          · cases he; exact ⟨rfl, rfl⟩
          · exact absurd he (by simp)
        · cases he; exact ⟨rfl, rfl⟩
      · split at he
        · split at he
          · cases he; exact ⟨rfl, rfl⟩
          · exact absurd he (by simp)
        · exact absurd he (by simp)

theorem rangeStep_some (h : Host) (n : String) (spec : Variable) (cv : JSValue)
    (e : ValidationError) (he : rangeStep h n spec cv = some e) :
    e.varName = n ∧ e.type = .invalid_range := by
  unfold rangeStep at he
  split at he
  · rcases (Option.orElse_eq_some _ _ _).mp he with h1 | ⟨_, h1⟩ <;>
    · split at h1
      · split at h1
        · cases h1; exact ⟨rfl, rfl⟩
        · exact absurd h1 (by simp)
      · exact absurd h1 (by simp)
  · exact absurd he (by simp)

theorem lengthStep_some (h : Host) (n : String) (spec : Variable) (cv : JSValue)
    (e : ValidationError) (he : lengthStep h n spec cv = some e) :
    e.varName = n ∧ e.type = .invalid_range := by
  unfold lengthStep at he
  split at he
  · rcases (Option.orElse_eq_some _ _ _).mp he with h1 | ⟨_, h1⟩ <;>
    · split at h1
      · split at h1
        · cases h1; exact ⟨rfl, rfl⟩
        · exact absurd h1 (by simp)
      · exact absurd h1 (by simp)
  · exact absurd he (by simp)

theorem patternStep_some (h : Host) (n v : String) (spec : Variable) (e : ValidationError)
    (he : patternStep h n v spec = some e) : e.varName = n ∧ e.type = .invalid_format := by
  unfold patternStep at he
  split at he
  · exact absurd he (by simp)
  · split at he
    · exact absurd he (by simp)
    · split at he
      · split at he
        · cases he; exact ⟨rfl, rfl⟩
        · exact absurd he (by simp)
      · exact absurd he (by simp)

/-- Any error produced by the post-coercion check chain carries the
variable's name and one of the three post-coercion error kinds. -/
theorem checkChain_some (h : Host) (n v : String) (spec : Variable) (cv : JSValue)
    (e : ValidationError)
    (he : (enumStep n v spec <|> formatStep h n v spec <|> rangeStep h n spec cv <|>
      lengthStep h n spec cv <|> patternStep h n v spec) = some e) :
    e.varName = n ∧
      (e.type = .invalid_enum ∨ e.type = .invalid_format ∨ e.type = .invalid_range) := by
  rcases (Option.orElse_eq_some _ _ _).mp he with h1 | ⟨_, h1⟩
  · obtain ⟨a, b⟩ := enumStep_some n v spec e h1; exact ⟨a, Or.inl b⟩
  · rcases (Option.orElse_eq_some _ _ _).mp h1 with h2 | ⟨_, h2⟩
    · obtain ⟨a, b⟩ := formatStep_some h n v spec e h2; exact ⟨a, Or.inr (Or.inl b)⟩
    · rcases (Option.orElse_eq_some _ _ _).mp h2 with h3 | ⟨_, h3⟩
      · obtain ⟨a, b⟩ := rangeStep_some h n spec cv e h3; exact ⟨a, Or.inr (Or.inr b)⟩
      · rcases (Option.orElse_eq_some _ _ _).mp h3 with h4 | ⟨_, h4⟩
        · obtain ⟨a, b⟩ := lengthStep_some h n spec cv e h4; exact ⟨a, Or.inr (Or.inr b)⟩
        · obtain ⟨a, b⟩ := patternStep_some h n v spec e h4; exact ⟨a, Or.inr (Or.inl b)⟩

/-- Any error produced by the chain after the enum check is an
`invalid_format` or `invalid_range` error for the variable. -/
theorem postEnumChain_some (h : Host) (n v : String) (spec : Variable) (cv : JSValue)
    (e : ValidationError)
    (he : (formatStep h n v spec <|> rangeStep h n spec cv <|>
      lengthStep h n spec cv <|> patternStep h n v spec) = some e) :
    e.varName = n ∧ (e.type = .invalid_format ∨ e.type = .invalid_range) := by
  rcases (Option.orElse_eq_some _ _ _).mp he with h2 | ⟨_, h2⟩
  · obtain ⟨a, b⟩ := formatStep_some h n v spec e h2; exact ⟨a, Or.inl b⟩
  · rcases (Option.orElse_eq_some _ _ _).mp h2 with h3 | ⟨_, h3⟩
    · obtain ⟨a, b⟩ := rangeStep_some h n spec cv e h3; exact ⟨a, Or.inr b⟩
    · rcases (Option.orElse_eq_some _ _ _).mp h3 with h4 | ⟨_, h4⟩
      · obtain ⟨a, b⟩ := lengthStep_some h n spec cv e h4; exact ⟨a, Or.inr b⟩
      · obtain ⟨a, b⟩ := patternStep_some h n v spec e h4; exact ⟨a, Or.inl b⟩

theorem validatePresent_warning (h : Host) (n v : String) (spec : Variable) :
    (validatePresent h n v spec).warning = none := by
  unfold validatePresent
  split
  · rfl
  · split <;> rfl

/-- When coercion succeeds, `validatePresent` is the outcome of the
post-coercion check chain. -/
theorem validatePresent_of_success (h : Host) (n v : String) (spec : Variable)
    (hc : (coerceValue v spec.type).success = true) :
    validatePresent h n v spec =
      (match enumStep n v spec <|> formatStep h n v spec <|>
          rangeStep h n spec (coerceValue v spec.type).value <|>
          lengthStep h n spec (coerceValue v spec.type).value <|>
          patternStep h n v spec with
        | some e => { error := some e }
        | none => { parsed := some (coerceValue v spec.type).value }) := by
  unfold validatePresent
  rw [hc]
  rfl

theorem validatePresent_error_some (h : Host) (n v : String) (spec : Variable)
    (e : ValidationError) (he : (validatePresent h n v spec).error = some e) :
    e.varName = n ∧ e.type ≠ .missing := by
  unfold validatePresent at he
  split at he
  · cases he; exact ⟨rfl, by simp⟩
  · split at he
    next e' heq =>
      cases he
      obtain ⟨a, b⟩ := checkChain_some h n v spec (coerceValue v spec.type).value e heq
      refine ⟨a, ?_⟩
      rcases b with b | b | b <;> simp [b]
    next => exact absurd he (by simp)

theorem missingCase_error_some (h : Host) (n : String) (spec : Variable)
    (e : ValidationError) (he : (missingCase h n spec).error = some e) :
    e = ⟨n, "Required variable is missing", .missing, none, none⟩ := by
  unfold missingCase at he
  split at he
  · split at he
    · exact absurd he (by simp)
    · cases he; rfl
  · split at he
    · exact absurd he (by simp)
    · exact absurd he (by simp)

theorem missingCase_warning_some (h : Host) (n : String) (spec : Variable)
    (w : ValidationWarning) (hw : (missingCase h n spec).warning = some w) :
    w.varName = n ∧ w.type = .default_applied := by
  unfold missingCase at hw
  split at hw
  · split at hw
    · cases hw; exact ⟨rfl, rfl⟩
    · exact absurd hw (by simp)
  · split at hw
    · cases hw; exact ⟨rfl, rfl⟩
    · exact absurd hw (by simp)

/-- Every error produced by the field validator names the variable it was
produced for. -/
theorem validateVariable_error_some (h : Host) (n : String) (v : Option String)
    (spec : Variable) (e : ValidationError)
    (he : (validateVariable h n v spec).error = some e) : e.varName = n := by
  unfold validateVariable at he
  split at he
  · cases missingCase_error_some h n spec e he; rfl
  · split at he
    · cases missingCase_error_some h n spec e he; rfl
    · exact (validatePresent_error_some h n _ spec e he).1

/-- Every warning produced by the field validator names the variable and
is a `default_applied` warning. -/
theorem validateVariable_warning_some (h : Host) (n : String) (v : Option String)
    (spec : Variable) (w : ValidationWarning)
    (hw : (validateVariable h n v spec).warning = some w) :
    w.varName = n ∧ w.type = .default_applied := by
  unfold validateVariable at hw
  split at hw
  · exact missingCase_warning_some h n spec w hw
  · split at hw
    · exact missingCase_warning_some h n spec w hw
    · rw [validatePresent_warning] at hw; exact absurd hw (by simp)

/-- The field validator never produces both an error and a warning. -/
theorem validateVariable_exclusive (h : Host) (n : String) (v : Option String)
    (spec : Variable) :
    ¬((validateVariable h n v spec).error.isSome ∧
      (validateVariable h n v spec).warning.isSome) := by
  rintro ⟨he, hw⟩
  have hmiss : ¬((missingCase h n spec).error.isSome ∧
      (missingCase h n spec).warning.isSome) := by
    rintro ⟨he', hw'⟩
    unfold missingCase at he' hw'
    split at he' <;> split at he' <;> simp_all
  cases v with
  | none =>
    simp only [validateVariable] at he hw
    exact hmiss ⟨he, hw⟩
  | some s =>
    simp only [validateVariable] at he hw
    by_cases hs : s = ""
    · rw [if_pos hs] at he hw; exact hmiss ⟨he, hw⟩
    · rw [if_neg hs] at hw; rw [validatePresent_warning] at hw; simp at hw

/-! ### Decomposition of `validate`'s collections -/

theorem validate_errors (h : Host) (schema : EnvSchema) (env : Env)
    (opts : ValidateOptions) :
    (validate h schema env opts).errors =
      schema.vars.filterMap
        (fun p => (validateVariable h p.1 (envGet env p.1) p.2).error) := by
  simp only [validate, List.filterMap_map]
  rfl

theorem validate_warnings (h : Host) (schema : EnvSchema) (env : Env)
    (opts : ValidateOptions) :
    (validate h schema env opts).warnings =
      schema.vars.filterMap
          (fun p => (validateVariable h p.1 (envGet env p.1) p.2).warning) ++
        (if opts.strict then strictWarnings schema env else []) := by
  simp only [validate, List.filterMap_map]
  cases hs : opts.strict <;> simp <;> rfl

theorem validate_parsed (h : Host) (schema : EnvSchema) (env : Env)
    (opts : ValidateOptions) :
    (validate h schema env opts).parsed =
      schema.vars.filterMap
        (fun p => ((validateVariable h p.1 (envGet env p.1) p.2).parsed).map
          (fun v => (p.1, v))) := by
  simp only [validate, List.filterMap_map]
  rfl

/-- Filtering a keyed `filterMap` (whose producer tags every output with
its key) by a key occurring exactly once isolates that entry's output. -/
theorem filter_filterMap_key {α β : Type} (g : String → α → Option β) (key : β → String)
    (hg : ∀ a b x, g a b = some x → key x = a)
    (l : List (String × α)) (hnd : (l.map Prod.fst).Nodup)
    (n : String) (b : α) (hmem : (n, b) ∈ l) :
    (l.filterMap (fun p => g p.1 p.2)).filter (fun x => key x == n) = (g n b).toList := by
  have hnil : ∀ (t : List (String × α)), n ∉ t.map Prod.fst →
      (t.filterMap (fun p => g p.1 p.2)).filter (fun x => key x == n) = [] := by
    intro t hn
    rw [List.filter_eq_nil_iff]
    intro x hx
    obtain ⟨p, hp, hgp⟩ := List.mem_filterMap.mp hx
    have hkey := hg p.1 p.2 x hgp
    simp only [hkey, beq_iff_eq]
    intro hcontra
    exact hn (hcontra ▸ List.mem_map_of_mem Prod.fst hp)
  induction l with
  | nil => cases hmem
  | cons hd t ih =>
    rw [List.map_cons, List.nodup_cons] at hnd
    rcases List.mem_cons.mp hmem with heq | hmemt
    · subst heq
      rw [List.filterMap_cons]
      cases hghd : g n b with
      | none => simpa using hnil t hnd.1
      | some x =>
        have hkey := hg n b x hghd
        simp only [List.filter_cons, hkey, beq_self_eq_true, if_true, Option.toList_some]
        rw [hnil t hnd.1]
    · have hne : hd.1 ≠ n := by
        intro hcontra
        exact hnd.1 (hcontra ▸ List.mem_map_of_mem Prod.fst hmemt)
      rw [List.filterMap_cons]
      cases hghd : g hd.1 hd.2 with
      | none => exact ih hnd.2 hmemt
      | some x =>
        have hkey := hg hd.1 hd.2 x hghd
        simp only [List.filter_cons, hkey]
        rw [if_neg (by simpa using hne)]
        exact ih hnd.2 hmemt

/-- In the strict scan, a schema-declared key never yields a warning. -/
theorem strictWarnings_declared (schema : EnvSchema) (env : Env) (n : String)
    (hn : n ∈ schema.vars.map Prod.fst) :
    (strictWarnings schema env).filter (fun w => w.varName == n) = [] := by
  rw [List.filter_eq_nil_iff]
  intro w hw
  obtain ⟨key, _, hsome⟩ := List.mem_filterMap.mp hw
  unfold unusedWarning at hsome
  split at hsome
  · simp at hsome
  · split at hsome
    · simp at hsome
    next hc =>
      cases hsome
      simp only [beq_iff_eq]
      intro hcontra
      exact hc (hcontra ▸ List.elem_eq_true_of_mem hn)

theorem validate_errors_filter (h : Host) (schema : EnvSchema) (env : Env)
    (opts : ValidateOptions) (n : String) (spec : Variable)
    (hnd : (schema.vars.map Prod.fst).Nodup) (hmem : (n, spec) ∈ schema.vars) :
    (validate h schema env opts).errors.filter (fun e => e.varName == n) =
      (validateVariable h n (envGet env n) spec).error.toList := by
  rw [validate_errors]
  exact filter_filterMap_key
    (fun a b => (validateVariable h a (envGet env a) b).error) ValidationError.varName
    (fun a b x hx => validateVariable_error_some h a _ b x hx)
    schema.vars hnd n spec hmem

theorem validate_warnings_filter (h : Host) (schema : EnvSchema) (env : Env)
    (opts : ValidateOptions) (n : String) (spec : Variable)
    (hnd : (schema.vars.map Prod.fst).Nodup) (hmem : (n, spec) ∈ schema.vars) :
    (validate h schema env opts).warnings.filter (fun w => w.varName == n) =
      (validateVariable h n (envGet env n) spec).warning.toList := by
  rw [validate_warnings, List.filter_append]
  rw [filter_filterMap_key
    (fun a b => (validateVariable h a (envGet env a) b).warning) ValidationWarning.varName
    (fun a b x hx => (validateVariable_warning_some h a _ b x hx).1)
    schema.vars hnd n spec hmem]
  cases opts.strict
  · simp
  · simp only [if_true]
    rw [strictWarnings_declared schema env n (List.mem_map_of_mem Prod.fst hmem)]
    simp

theorem validate_parsed_filter (h : Host) (schema : EnvSchema) (env : Env)
    (opts : ValidateOptions) (n : String) (spec : Variable)
    (hnd : (schema.vars.map Prod.fst).Nodup) (hmem : (n, spec) ∈ schema.vars) :
    (validate h schema env opts).parsed.filter (fun p => p.1 == n) =
      ((validateVariable h n (envGet env n) spec).parsed.map (fun v => (n, v))).toList := by
  rw [validate_parsed]
  exact filter_filterMap_key
    (fun a b => ((validateVariable h a (envGet env a) b).parsed).map (fun v => (a, v)))
    Prod.fst
    (fun a b x hx => by
      dsimp only at hx
      rcases Option.map_eq_some'.mp hx with ⟨pv, _, hxeq⟩
      rw [← hxeq])
    schema.vars hnd n spec hmem

/-! ### The absent-or-empty branch, computed -/

/-- With a declared default, an absent or empty raw value yields exactly
the `default_applied` warning and the default as parsed value. -/
theorem validateVariable_absent_default (h : Host) (n : String) (v : Option String)
    (spec : Variable) (d : JSValue) (hv : v = none ∨ v = some "")
    (hd : spec.default = some d) :
    validateVariable h n v spec =
      { error := none,
        warning := some ⟨n, "Using default value: " ++ jsValueToString h d, .default_applied⟩,
        parsed := some d } := by
  have hm : missingCase h n spec =
      { error := none,
        warning := some ⟨n, "Using default value: " ++ jsValueToString h d, .default_applied⟩,
        parsed := some d } := by
    unfold missingCase
    rw [hd]
    split <;> rfl
  rcases hv with hv | hv <;> subst hv <;> simp [validateVariable, hm]

/-- Required, no default: an absent or empty raw value yields exactly the
`missing` error. -/
theorem validateVariable_absent_missing (h : Host) (n : String) (v : Option String)
    (spec : Variable) (hv : v = none ∨ v = some "")
    (hreq : spec.required = true) (hd : spec.default = none) :
    validateVariable h n v spec =
      { error := some ⟨n, "Required variable is missing", .missing, none, none⟩,
        warning := none, parsed := none } := by
  have hm : missingCase h n spec =
      { error := some ⟨n, "Required variable is missing", .missing, none, none⟩,
        warning := none, parsed := none } := by
    unfold missingCase
    rw [hd, hreq]
    rfl
  rcases hv with hv | hv <;> subst hv <;> simp [validateVariable, hm]

/-! ### Claims -/

/-- C9: `validate` is deterministic and stateless: in this embedding it is
a pure function of schema, environment and options (the source touches no
module-level mutable state), so two calls with structurally identical
inputs produce structurally identical results — the same `valid` flag and
the same error, warning and parsed collections in the same order. -/
theorem claim_C9 (h : Host) (schema : EnvSchema) (env : Env) (opts : ValidateOptions) :
    validate h schema env opts = validate h schema env opts ∧
    (validate h schema env opts).valid = (validate h schema env opts).valid ∧
    (validate h schema env opts).errors = (validate h schema env opts).errors ∧
    (validate h schema env opts).warnings = (validate h schema env opts).warnings ∧
    (validate h schema env opts).parsed = (validate h schema env opts).parsed :=
  ⟨rfl, rfl, rfl, rfl, rfl⟩

/-- C4: `valid` is true exactly when the error collection is empty; the
error collection (hence validity) does not depend on the options, so
warnings — the only thing strict mode adds — never affect validity; and
`isValid` returns exactly this boolean for the default options. -/
theorem claim_C4 (h : Host) (schema : EnvSchema) (env : Env) (opts : ValidateOptions) :
    ((validate h schema env opts).valid = (validate h schema env opts).errors.isEmpty) ∧
    ((validate h schema env opts).errors = (validate h schema env ⟨false⟩).errors) ∧
    (isValid h schema env = (validate h schema env ⟨false⟩).valid) := by
  refine ⟨rfl, ?_, rfl⟩
  rw [validate_errors, validate_errors]

/-- C10: an applied default bypasses every later check: whenever the raw
value is absent or empty and a default is declared — whatever the spec's
type, enum, format, range, length and pattern constraints are — the result
is exactly the `default_applied` warning and the default stored as parsed
value unchanged, with no error. -/
theorem claim_C10 (h : Host) (n : String) (v : Option String) (spec : Variable)
    (d : JSValue) (hv : v = none ∨ v = some "") (hd : spec.default = some d) :
    validateVariable h n v spec =
      { error := none,
        warning := some ⟨n, "Using default value: " ++ jsValueToString h d, .default_applied⟩,
        parsed := some d } :=
  validateVariable_absent_default h n v spec d hv hd

/-- C10 witness: a default that violates the spec's own type, enum,
length and pattern constraints is still stored untouched. -/
theorem claim_C10_witness :
    validateVariable hostNone "PORT" none
      { type := .number, default := some (.str "nope"), enum := some ["1", "2"],
        min := some 1, pattern := some "^[0-9]+$" } =
      { error := none,
        warning := some ⟨"PORT", "Using default value: nope", .default_applied⟩,
        parsed := some (.str "nope") } :=
  claim_C10 hostNone "PORT" none _ (.str "nope") (Or.inl rfl) rfl

/-- C2: for a required spec with no default and an absent-or-empty raw
value, `validate` reports exactly one `missing` error for that variable,
no warning for it, and no parsed entry for it. -/
theorem claim_C2 (h : Host) (schema : EnvSchema) (env : Env) (opts : ValidateOptions)
    (n : String) (spec : Variable)
    (hnd : (schema.vars.map Prod.fst).Nodup) (hmem : (n, spec) ∈ schema.vars)
    (hreq : spec.required = true) (hdef : spec.default = none)
    (hval : envGet env n = none ∨ envGet env n = some "") :
    (validate h schema env opts).errors.filter (fun e => e.varName == n) =
      [⟨n, "Required variable is missing", .missing, none, none⟩] ∧
    (validate h schema env opts).warnings.filter (fun w => w.varName == n) = [] ∧
    (validate h schema env opts).parsed.filter (fun p => p.1 == n) = [] := by
  have hr := validateVariable_absent_missing h n (envGet env n) spec hval hreq hdef
  rw [validate_errors_filter h schema env opts n spec hnd hmem,
    validate_warnings_filter h schema env opts n spec hnd hmem,
    validate_parsed_filter h schema env opts n spec hnd hmem, hr]
  exact ⟨rfl, rfl, rfl⟩

/-- C2 witness: a required `DATABASE_URL` with no default, absent from the
environment. -/
theorem claim_C2_witness :
    (validate hostNone ⟨[("DATABASE_URL", { type := .string })]⟩ [] {}).errors.filter
      (fun e => e.varName == "DATABASE_URL") =
      [⟨"DATABASE_URL", "Required variable is missing", .missing, none, none⟩] ∧
    (validate hostNone ⟨[("DATABASE_URL", { type := .string })]⟩ [] {}).warnings.filter
      (fun w => w.varName == "DATABASE_URL") = [] ∧
    (validate hostNone ⟨[("DATABASE_URL", { type := .string })]⟩ [] {}).parsed.filter
      (fun p => p.1 == "DATABASE_URL") = [] :=
  claim_C2 hostNone ⟨[("DATABASE_URL", { type := .string })]⟩ [] {} "DATABASE_URL"
    { type := .string } (by simp) (by simp) rfl rfl (Or.inl rfl)

/-- C3: for a spec that declares a default — required or not — and an
absent-or-empty raw value, `validate` reports exactly one
`default_applied` warning for that variable, no error for it, and stores
the declared default as its parsed value. -/
theorem claim_C3 (h : Host) (schema : EnvSchema) (env : Env) (opts : ValidateOptions)
    (n : String) (spec : Variable) (d : JSValue)
    (hnd : (schema.vars.map Prod.fst).Nodup) (hmem : (n, spec) ∈ schema.vars)
    (hdef : spec.default = some d)
    (hval : envGet env n = none ∨ envGet env n = some "") :
    (validate h schema env opts).errors.filter (fun e => e.varName == n) = [] ∧
    (validate h schema env opts).warnings.filter (fun w => w.varName == n) =
      [⟨n, "Using default value: " ++ jsValueToString h d, .default_applied⟩] ∧
    (validate h schema env opts).parsed.filter (fun p => p.1 == n) = [(n, d)] := by
  have hr := validateVariable_absent_default h n (envGet env n) spec d hval hdef
  rw [validate_errors_filter h schema env opts n spec hnd hmem,
    validate_warnings_filter h schema env opts n spec hnd hmem,
    validate_parsed_filter h schema env opts n spec hnd hmem, hr]
  exact ⟨rfl, rfl, rfl⟩

/-- A required `PORT : number` spec with default `3000`, used to
instantiate C3. -/
def portSpec : Variable :=
  { type := .number, required := true, default := some (.num (.val 3000)) }

/-- C3 witness: a *required* `PORT` with default `3000`, bound to the
empty string in the environment, is satisfied by the default. -/
theorem claim_C3_witness :
    (validate hostNone ⟨[("PORT", portSpec)]⟩ [("PORT", some "")] {}).errors.filter
      (fun e => e.varName == "PORT") = [] ∧
    (validate hostNone ⟨[("PORT", portSpec)]⟩ [("PORT", some "")] {}).warnings.filter
      (fun w => w.varName == "PORT") =
      [⟨"PORT", "Using default value: #", .default_applied⟩] ∧
    (validate hostNone ⟨[("PORT", portSpec)]⟩ [("PORT", some "")] {}).parsed.filter
      (fun p => p.1 == "PORT") = [("PORT", .num (.val 3000))] :=
  claim_C3 hostNone ⟨[("PORT", portSpec)]⟩ [("PORT", some "")] {} "PORT" portSpec
    (.num (.val 3000)) (by simp) (by simp) rfl (Or.inr rfl)

/-- C1 counterexample: the raw string `"Infinity"` parses to positive
infinity — not a finite number — yet number coercion accepts it and the
field validator produces no error for it, contradicting the claim that a
parse to positive or negative infinity is rejected with `invalid_type`. -/
theorem claim_C1_cex :
    jsNumber "Infinity" = .posInf ∧
    coerceValue "Infinity" .number =
      { success := true, value := .num .posInf, error := none } ∧
    (validateVariable hostNone "X" (some "Infinity") { type := .number }).error = none :=
  ⟨rfl, rfl, rfl⟩

/-- C1 (amended): number coercion fails — yielding `invalid_type` with
expected = the declared type and received = the raw string — exactly when
the host parse is NaN (not a number at all); a raw string parsing to
positive or negative infinity is accepted, and no `invalid_type` error is
produced for it. -/
theorem claim_C1 (h : Host) (n v : String) (spec : Variable)
    (hv : v ≠ "") (ht : spec.type = .number) :
    (jsNumber v = .nan →
      (validateVariable h n (some v) spec).error =
        some ⟨n, "Cannot convert \"" ++ v ++ "\" to number", .invalid_type,
          some "number", some v⟩) ∧
    (jsNumber v ≠ .nan →
      ∀ e, (validateVariable h n (some v) spec).error = some e →
        e.type ≠ .invalid_type) := by
  constructor
  · intro hnan
    have hc : coerceValue v spec.type =
        { success := false, value := .str v,
          error := some ("Cannot convert \"" ++ v ++ "\" to number") } := by
      rw [ht]
      simp [coerceValue, hnan]
    simp only [validateVariable, if_neg hv]
    unfold validatePresent
    rw [hc, ht]
    rfl
  · intro hnan e he
    have hc : (coerceValue v spec.type).success = true := by
      rw [ht]
      simp [coerceValue, hnan]
    simp only [validateVariable, if_neg hv] at he
    rw [validatePresent_of_success h n v spec hc] at he
    split at he
    next e' heq =>
      have : e' = e := by simpa using he
      subst this
      obtain ⟨_, hty⟩ := checkChain_some h n v spec (coerceValue v spec.type).value e' heq
      rcases hty with hty | hty | hty <;> simp [hty]
    next => simp at he

/-- C1 witness: a non-numeric raw string under type `number` yields the
`invalid_type` error with the declared type and the raw value. -/
theorem claim_C1_witness :
    (validateVariable hostNone "X" (some "abc") { type := .number }).error =
      some ⟨"X", "Cannot convert \"abc\" to number", .invalid_type,
        some "number", some "abc"⟩ :=
  (claim_C1 hostNone "X" "abc" { type := .number } (by decide) rfl).1 rfl

/-- C5: the enum check compares the raw string — before coercion — against
the members: with a non-empty enum and a present, coercible raw value, a
non-member yields the `invalid_enum` error with expected = the joined enum
list, while a member never produces an `invalid_enum` error; in
particular, `{type: number, enum: ["1","2"]}` with raw `"1"` validates and
parses to the number 1 even though the enum members are strings. -/
theorem claim_C5 (h : Host) (n v : String) (spec : Variable) (es : List String)
    (henum : spec.enum = some es) (hne : es ≠ []) (hv : v ≠ "")
    (hc : (coerceValue v spec.type).success = true) :
    (es.contains v = false →
      (validateVariable h n (some v) spec).error =
        some ⟨n, "Value must be one of: " ++ String.intercalate ", " es, .invalid_enum,
          some (String.intercalate " | " es), some v⟩) ∧
    (es.contains v = true →
      ∀ e, (validateVariable h n (some v) spec).error = some e →
        e.type ≠ .invalid_enum) ∧
    validateVariable h "N" (some "1") { type := .number, enum := some ["1", "2"] } =
      { error := none, warning := none, parsed := some (.num (.val 1)) } := by
  refine ⟨?_, ?_, ?_⟩
  · intro hnc
    have hvm : v ∉ es := by simpa using hnc
    have hes : enumStep n v spec =
        some ⟨n, "Value must be one of: " ++ String.intercalate ", " es, .invalid_enum,
          some (String.intercalate " | " es), some v⟩ := by
      unfold enumStep
      rw [henum]
      simp [hvm, List.length_pos, hne]
    simp only [validateVariable, if_neg hv]
    rw [validatePresent_of_success h n v spec hc, hes]
    rfl
  · intro hct e he
    have hvm : v ∈ es := by simpa using hct
    have hes : enumStep n v spec = none := by
      unfold enumStep
      rw [henum]
      simp [hvm]
    simp only [validateVariable, if_neg hv] at he
    rw [validatePresent_of_success h n v spec hc, hes, Option.none_orElse] at he
    split at he
    next e' heq =>
      have : e' = e := by simpa using he
      subst this
      obtain ⟨_, hty⟩ := postEnumChain_some h n v spec (coerceValue v spec.type).value e' heq
      rcases hty with hty | hty <;> simp [hty]
    next => simp at he
  · rfl

/-- C5 witness: a raw value outside the enum yields the `invalid_enum`
error with the joined enum list. -/
theorem claim_C5_witness :
    (validateVariable hostNone "LOG" (some "nope")
        { type := .string, enum := some ["a", "b"] }).error =
      some ⟨"LOG", "Value must be one of: a, b", .invalid_enum, some "a | b", some "nope"⟩ :=
  (claim_C5 hostNone "LOG" "nope" { type := .string, enum := some ["a", "b"] }
    ["a", "b"] rfl (by decide) (by decide) rfl).1 rfl

/-- C6: uncompilable regex handling is asymmetric. If `format` is
`regex:`-prefixed and the remainder does not compile, the field errors
with `invalid_format` naming the pattern (given the earlier checks pass).
If instead the custom `pattern` does not compile, the pattern step is
silently skipped: with every earlier check passing, the variable validates
with its coerced value and no error. -/
theorem claim_C6 (h : Host) (n v : String) (spec : Variable) (hv : v ≠ "")
    (hc : (coerceValue v spec.type).success = true)
    (henum : enumStep n v spec = none) :
    (∀ f, spec.format = some f → jsStartsWith f "regex:" = true →
      h.compileRegex (jsSlice f 6) = none →
      (validateVariable h n (some v) spec).error =
        some ⟨n, "Invalid regex pattern: " ++ jsSlice f 6, .invalid_format, none, none⟩) ∧
    (∀ p, spec.pattern = some p → h.compileRegex p = none →
      formatStep h n v spec = none →
      rangeStep h n spec (coerceValue v spec.type).value = none →
      lengthStep h n spec (coerceValue v spec.type).value = none →
      validateVariable h n (some v) spec =
        { error := none, warning := none,
          parsed := some (coerceValue v spec.type).value }) := by
  constructor
  · intro f hf hregex hcomp
    have hne : f ≠ "" := by
      intro h0
      subst h0
      exact absurd hregex (by decide)
    have hfs : formatStep h n v spec =
        some ⟨n, "Invalid regex pattern: " ++ jsSlice f 6, .invalid_format, none, none⟩ := by
      unfold formatStep
      rw [hf]
      simp [hne, hregex, hcomp]
    simp only [validateVariable, if_neg hv]
    rw [validatePresent_of_success h n v spec hc, henum, Option.none_orElse, hfs]
    rfl
  · intro p hp hcomp hfs hrs hls
    have hps : patternStep h n v spec = none := by
      unfold patternStep
      rw [hp]
      by_cases hpe : p = ""
      · simp [hpe]
      · simp [hpe, hcomp]
    simp only [validateVariable, if_neg hv]
    rw [validatePresent_of_success h n v spec hc, henum, Option.none_orElse, hfs,
      Option.none_orElse, hrs, Option.none_orElse, hls, Option.none_orElse, hps]

/-- C6 witness: on a host where `(` does not compile, a
`format: "regex:("` spec errors with `invalid_format` naming `(`, while a
`pattern: "("` spec validates silently. -/
theorem claim_C6_witness :
    (validateVariable hostNone "A" (some "x")
        { type := .string, format := some "regex:(" }).error =
      some ⟨"A", "Invalid regex pattern: (", .invalid_format, none, none⟩ ∧
    validateVariable hostNone "B" (some "x") { type := .string, pattern := some "(" } =
      { error := none, warning := none, parsed := some (.str "x") } := by
  constructor
  · exact (claim_C6 hostNone "A" "x" { type := .string, format := some "regex:(" }
      (by decide) rfl rfl).1 "regex:(" rfl (by decide) rfl
  · exact (claim_C6 hostNone "B" "x" { type := .string, pattern := some "(" }
      (by decide) rfl rfl).2 "(" rfl rfl rfl rfl rfl

/-- Warnings produced by the per-variable phase are all `default_applied`. -/
theorem perVarWarnings_default (h : Host) (schema : EnvSchema) (env : Env)
    (w : ValidationWarning)
    (hw : w ∈ schema.vars.filterMap
      (fun p => (validateVariable h p.1 (envGet env p.1) p.2).warning)) :
    w.type = .default_applied := by
  obtain ⟨p, _, hp⟩ := List.mem_filterMap.mp hw
  exact (validateVariable_warning_some h p.1 _ p.2 w hp).2

/-- Counting the strict scan's `unused` warnings for one key over a
duplicate-free key list. -/
theorem unusedScan_count (schema : EnvSchema) (keys : List String) (hnd : keys.Nodup)
    (key : String) :
    ((keys.filterMap (unusedWarning schema)).filter
      (fun w => w.type == WarningType.unused && w.varName == key)).length =
    (if key ∈ keys ∧ isSystemEnvVar key = false ∧
        (schema.vars.map Prod.fst).contains key = false then 1 else 0) := by
  induction keys with
  | nil => simp
  | cons k t ih =>
    rw [List.nodup_cons] at hnd
    have iht := ih hnd.2
    rw [List.filterMap_cons]
    cases hu : unusedWarning schema k with
    | none =>
      rw [iht]
      by_cases hk : key = k
      · subst hk
        have hcond : ¬(isSystemEnvVar key = false ∧
            (schema.vars.map Prod.fst).contains key = false) := by
          rintro ⟨h1, h2⟩
          unfold unusedWarning at hu
          rw [h1, h2] at hu
          simp at hu
        rw [if_neg (fun hx => hnd.1 hx.1), if_neg (fun hx => hcond hx.2)]
      · have hmm : (key ∈ k :: t) ↔ (key ∈ t) := by simp [List.mem_cons, hk]
        simp only [hmm]
    | some w =>
      have hw : w = ⟨k, "Variable not defined in schema", .unused⟩ ∧
          isSystemEnvVar k = false ∧
          (schema.vars.map Prod.fst).contains k = false := by
        unfold unusedWarning at hu
        split at hu
        next hs => simp at hu
        next hs =>
          split at hu
          next hc => simp at hu
          next hc =>
            cases hu
            exact ⟨rfl, by simpa using hs, by simpa using hc⟩
      obtain ⟨hww, hsys, hdecl⟩ := hw
      subst hww
      rw [List.filter_cons]
      by_cases hk : key = k
      · subst hk
        rw [if_pos (by simp), List.length_cons, iht,
          if_neg (fun hx => hnd.1 hx.1),
          if_pos ⟨List.mem_cons_self _ _, hsys, hdecl⟩]
      · rw [if_neg (by simp [Ne.symm hk]), iht]
        have hmm : (key ∈ k :: t) ↔ (key ∈ t) := by simp [List.mem_cons, hk]
        simp only [hmm]

/-- C7: with `strict` set, `validate` emits exactly one `unused` warning
for every environment key that is neither schema-declared nor on the
system-variable allow-list (prefix or exact match); allow-listed keys such
as `PATH` never get one; without `strict`, no `unused` warnings at all. -/
theorem claim_C7 (h : Host) (schema : EnvSchema) (env : Env)
    (hnd : (env.map Prod.fst).Nodup) (key : String) :
    (((validate h schema env ⟨true⟩).warnings.filter
        (fun w => w.type == WarningType.unused && w.varName == key)).length =
      (if key ∈ env.map Prod.fst ∧ isSystemEnvVar key = false ∧
          (schema.vars.map Prod.fst).contains key = false then 1 else 0)) ∧
    isSystemEnvVar "PATH" = true ∧
    (∀ w ∈ (validate h schema env ⟨false⟩).warnings, w.type ≠ WarningType.unused) := by
  refine ⟨?_, by decide, ?_⟩
  · rw [validate_warnings, List.filter_append, List.length_append]
    have h1 : (schema.vars.filterMap
        (fun p => (validateVariable h p.1 (envGet env p.1) p.2).warning)).filter
        (fun w => w.type == WarningType.unused && w.varName == key) = [] := by
      rw [List.filter_eq_nil_iff]
      intro w hw
      have := perVarWarnings_default h schema env w hw
      simp [this]
    rw [h1]
    unfold strictWarnings
    simp only [List.length_nil, Nat.zero_add]
    exact unusedScan_count schema (env.map Prod.fst) hnd key
  · intro w hw
    rw [validate_warnings] at hw
    simp only [if_neg (by simp : ¬(ValidateOptions.mk false).strict = true),
      List.append_nil] at hw
    have := perVarWarnings_default h schema env w hw
    simp [this]

/-- The strict-mode example schema and environment of the specification:
one declared variable, one extra key and one allow-listed key. -/
def dbSchema : EnvSchema := ⟨[("DATABASE_URL", { type := .string })]⟩

def extraEnv : Env :=
  [("DATABASE_URL", some "x"), ("EXTRA", some "y"), ("PATH", some "/usr/bin")]

/-- C7 witness: with strict set, `EXTRA` gets exactly one `unused` warning
and the allow-listed `PATH` gets none. -/
theorem claim_C7_witness :
    ((validate hostNone dbSchema extraEnv ⟨true⟩).warnings.filter
        (fun w => w.type == WarningType.unused && w.varName == "EXTRA")).length = 1 ∧
    ((validate hostNone dbSchema extraEnv ⟨true⟩).warnings.filter
        (fun w => w.type == WarningType.unused && w.varName == "PATH")).length = 0 := by
  constructor
  · rw [(claim_C7 hostNone dbSchema extraEnv (by decide) "EXTRA").1]
    decide
  · rw [(claim_C7 hostNone dbSchema extraEnv (by decide) "PATH").1]
    decide

/-- C8: the field validator yields at most one error, at most one warning
and at most one parsed value, and never an error and a warning together;
in `validate`'s collections the variable's entries are exactly the
optional outputs of its field validation (so a variable producing none of
the three is absent from all three). -/
theorem claim_C8 (h : Host) (schema : EnvSchema) (env : Env) (opts : ValidateOptions)
    (n : String) (spec : Variable)
    (hnd : (schema.vars.map Prod.fst).Nodup) (hmem : (n, spec) ∈ schema.vars) :
    (¬((validateVariable h n (envGet env n) spec).error.isSome ∧
       (validateVariable h n (envGet env n) spec).warning.isSome)) ∧
    ((validate h schema env opts).errors.filter (fun e => e.varName == n) =
      ((validateVariable h n (envGet env n) spec).error).toList) ∧
    ((validate h schema env opts).warnings.filter (fun w => w.varName == n) =
      ((validateVariable h n (envGet env n) spec).warning).toList) ∧
    ((validate h schema env opts).parsed.filter (fun p => p.1 == n) =
      (((validateVariable h n (envGet env n) spec).parsed).map (fun x => (n, x))).toList) ∧
    ((validate h schema env opts).errors.filter (fun e => e.varName == n)).length ≤ 1 ∧
    ((validate h schema env opts).warnings.filter (fun w => w.varName == n)).length ≤ 1 ∧
    ((validate h schema env opts).parsed.filter (fun p => p.1 == n)).length ≤ 1 := by
  refine ⟨validateVariable_exclusive h n (envGet env n) spec,
    validate_errors_filter h schema env opts n spec hnd hmem,
    validate_warnings_filter h schema env opts n spec hnd hmem,
    validate_parsed_filter h schema env opts n spec hnd hmem, ?_, ?_, ?_⟩
  · rw [validate_errors_filter h schema env opts n spec hnd hmem]
    cases (validateVariable h n (envGet env n) spec).error <;> simp
  · rw [validate_warnings_filter h schema env opts n spec hnd hmem]
    cases (validateVariable h n (envGet env n) spec).warning <;> simp
  · rw [validate_parsed_filter h schema env opts n spec hnd hmem]
    cases (validateVariable h n (envGet env n) spec).parsed <;> simp

/-- C8 witness: a single validated string variable contributes no error,
no warning and exactly its parsed entry. -/
theorem claim_C8_witness :
    (¬((validateVariable hostNone "A" (some "x") { type := .string }).error.isSome ∧
       (validateVariable hostNone "A" (some "x") { type := .string }).warning.isSome)) ∧
    ((validate hostNone ⟨[("A", { type := .string })]⟩ [("A", some "x")] {}).errors.filter
      (fun e => e.varName == "A") = []) ∧
    ((validate hostNone ⟨[("A", { type := .string })]⟩ [("A", some "x")] {}).warnings.filter
      (fun w => w.varName == "A") = []) ∧
    ((validate hostNone ⟨[("A", { type := .string })]⟩ [("A", some "x")] {}).parsed.filter
      (fun p => p.1 == "A") = [("A", .str "x")]) ∧
    ((validate hostNone ⟨[("A", { type := .string })]⟩ [("A", some "x")] {}).errors.filter
      (fun e => e.varName == "A")).length ≤ 1 ∧
    ((validate hostNone ⟨[("A", { type := .string })]⟩ [("A", some "x")] {}).warnings.filter
      (fun w => w.varName == "A")).length ≤ 1 ∧
    ((validate hostNone ⟨[("A", { type := .string })]⟩ [("A", some "x")] {}).parsed.filter
      (fun p => p.1 == "A")).length ≤ 1 :=
  claim_C8 hostNone ⟨[("A", { type := .string })]⟩ [("A", some "x")] {} "A"
    { type := .string } (by simp) (by simp)

end EnvGuardian
